import Mathlib

/-!
Verification of the ScheduleToCalendar backend (src/backend/main.py).

The file embeds the three pure pipeline stages of the backend —
`clean_response` (response sanitizer), `parse_schedule` (schedule decoder)
and `generate_ics` (recurrence expander / calendar emitter) — as executable
Lean definitions, and proves the specification claims about them.

Strings are modelled as Lean `String` (lists of characters); Python's
`datetime` values are modelled as proleptic-Gregorian ordinals (the value of
`date.toordinal()`) paired with a time-of-day record.  Digits are modelled
as ASCII digits.
-/

namespace ScheduleToCalendar

/-! ### Response sanitizer (`clean_response`) -/

/-- The backtick character. -/
def tick : Char := Char.ofNat 96

/-- Python `str.isspace` for a single character (the Unicode whitespace set
used by `str.strip()` with no arguments). -/
def pyIsSpace (c : Char) : Bool :=
  decide (c.toNat = 32 ∨ (9 ≤ c.toNat ∧ c.toNat ≤ 13) ∨
    (28 ≤ c.toNat ∧ c.toNat ≤ 31) ∨ c.toNat = 133 ∨ c.toNat = 160 ∨
    c.toNat = 5760 ∨ (8192 ≤ c.toNat ∧ c.toNat ≤ 8202) ∨ c.toNat = 8232 ∨
    c.toNat = 8233 ∨ c.toNat = 8239 ∨ c.toNat = 8287 ∨ c.toNat = 12288)

/-- Python `str.strip()`: remove leading and trailing whitespace. -/
def pyStrip (l : List Char) : List Char :=
  ((l.dropWhile pyIsSpace).reverse.dropWhile pyIsSpace).reverse

/-- Three backticks, the code-fence marker. -/
def tick3 : List Char := [tick, tick, tick]

/-- Python slice `s[3:-3]`. -/
def slice33 (l : List Char) : List Char := (l.drop 3).take (l.length - 6)

/-- The characters of the literal token "json". -/
def jsonChars : List Char := ['j', 's', 'o', 'n']

/-- Whether the lower-cased text starts with the token "json"
(`cleaned.lower().startswith("json")`). -/
def jsonPrefixed (l : List Char) : Bool :=
  decide ((l.map Char.toLower).take 4 = jsonChars)

/-- Python `cleaned.replace` of every backtick by the empty string. -/
def stripTicks (l : List Char) : List Char := l.filter (fun c => c != tick)

/-- The branch of `clean_response` taken when the text starts with "json":
drop the four characters, strip, and drop one leading colon if present. -/
def jsonColonStrip (l : List Char) : List Char :=
  let c := pyStrip (l.drop 4)
  if c.head? = some ':' then pyStrip (c.drop 1) else c

/-- Model of `clean_response` from `src/backend/main.py`, on the character
list. -/
def cleanList (l : List Char) : List Char :=
  let cleaned := pyStrip l
  let cleaned :=
    if cleaned.take 3 = tick3 ∧ cleaned.reverse.take 3 = tick3 then
      pyStrip (slice33 cleaned)
    else cleaned
  let cleaned := if jsonPrefixed cleaned then jsonColonStrip cleaned else cleaned
  stripTicks cleaned

/-- The sanitizer `clean_response` on `String`. -/
def clean_response (s : String) : String := ⟨cleanList s.data⟩

/-- Python `str.strip()` on `String`. -/
def pyStripStr (s : String) : String := ⟨pyStrip s.data⟩

/-- Whether a `String` starts (case-insensitively) with the token "json". -/
def jsonPrefixedStr (s : String) : Bool := jsonPrefixed s.data

/-! ### Schedule decoder (`parse_schedule`)

`demjson3.decode` is an external lenient JSON parser; it is modelled at its
boundary as a function `String → Option JVal` (`none` = the text cannot be
parsed even leniently).  `parse_schedule` is then a function of that decoder
and the raw model response. -/

/-- Decoded lenient-JSON values (the possible results of `demjson3.decode`). -/
inductive JVal where
  | jnull : JVal
  | jbool : Bool → JVal
  | jnum : Int → JVal
  | jstr : String → JVal
  | jarr : List JVal → JVal
  | jobj : List (String × JVal) → JVal

/-- Python `dict` lookup on a decoded JSON object. -/
def lookupJ (k : String) (kvs : List (String × JVal)) : Option JVal :=
  (kvs.find? (fun kv => kv.1 = k)).map (·.2)

/-- The "events" key. -/
def keyEvents : String := "events"

/-- Error message prefix of `parse_schedule` (`ValueError`). -/
def parseErrMsg : String := "Failed to parse schedule JSON"

/-- What `parse_schedule` does with the result of `demjson3.decode`:
read the "events" key with default `[]` (Python `dict.get("events", [])`),
and require it to be a list.  A non-dict decode result makes the `.get`
attribute access raise `AttributeError`, which the `except` clause turns
into the same `ValueError`; a decode failure likewise. -/
def parseResult : Option JVal → Except String (List JVal)
  | none => Except.error parseErrMsg
  | some (JVal.jobj kvs) =>
    match lookupJ keyEvents kvs with
    | none => Except.ok []
    | some (JVal.jarr es) => Except.ok es
    | some _ => Except.error parseErrMsg
  | some _ => Except.error parseErrMsg

/-- Model of `parse_schedule` from `src/backend/main.py`: sanitize, decode
leniently, extract the events list.  `dec` is the external
`demjson3.decode` boundary. -/
def parse_schedule (dec : String → Option JVal) (formatted_schedule : String) :
    Except String (List JVal) :=
  parseResult (dec (clean_response formatted_schedule))

/-- Whether a decoder result is an error. -/
def isFailure (r : Except String (List JVal)) : Bool :=
  match r with
  | Except.error _ => true
  | Except.ok _ => false

/-! ### Dates, times and `strptime` -/

/-- Time of day, seconds resolution (Python `datetime.time`). -/
structure Time where
  hour : Nat
  minute : Nat
  second : Nat
deriving DecidableEq

/-- A calendar date as year/month/day (Python `datetime.date`). -/
structure Date where
  year : Nat
  month : Nat
  day : Nat
deriving DecidableEq

/-- Gregorian leap year (Python `calendar.isleap`). -/
def isLeap (y : Nat) : Bool := y % 4 == 0 && (y % 100 != 0 || y % 400 == 0)

/-- Number of days in a month. -/
def daysInMonth (y m : Nat) : Nat :=
  if m = 2 then (if isLeap y then 29 else 28)
  else if m = 4 ∨ m = 6 ∨ m = 9 ∨ m = 11 then 30
  else 31

/-- Days in year `y` before month `m`. -/
def daysBeforeMonth (y m : Nat) : Nat :=
  (List.range (m - 1)).foldl (fun acc i => acc + daysInMonth y (i + 1)) 0

/-- Python `date(y, m, d).toordinal()`: proleptic-Gregorian ordinal,
with `date(1, 1, 1).toordinal() = 1`. -/
def toOrdinal (y m d : Nat) : Nat :=
  365 * (y - 1) + (y - 1) / 4 - (y - 1) / 100 + (y - 1) / 400 +
    daysBeforeMonth y m + d

/-- Python `date.fromordinal(o).weekday()`: Monday = 0.
`date(1, 1, 1)` (ordinal 1) is a Monday. -/
def weekday (o : Nat) : Nat := (o + 6) % 7

/-- Python `datetime.datetime`, as an ordinal date plus a time of day. -/
structure DateTime where
  date : Nat
  time : Time
deriving DecidableEq

/-- Numeric value of an ASCII digit. -/
def dval (c : Char) : Nat := c.toNat - 48

/-- Read exactly four digits (the regex `\d\d\d\d` for `%Y`). -/
def read4 : List Char → Option (Nat × List Char)
  | a :: b :: c :: d :: rest =>
    if a.isDigit && b.isDigit && c.isDigit && d.isDigit then
      some (1000 * dval a + 100 * dval b + 10 * dval c + dval d, rest)
    else none
  | _ => none

/-- Read one or two digits, greedily (the `%m`/`%d`/`%H`/`%M`/`%S` fields). -/
def read2 : List Char → Option (Nat × List Char)
  | a :: b :: rest =>
    if a.isDigit then
      if b.isDigit then some (10 * dval a + dval b, rest)
      else some (dval a, b :: rest)
    else none
  | [a] => if a.isDigit then some (dval a, []) else none
  | [] => none

/-- Expect a literal format character (case-insensitively, as `_strptime`
compiles its regex with `IGNORECASE`). -/
def lit (c : Char) : List Char → Option (List Char)
  | x :: rest => if x.toLower = c.toLower then some rest else none
  | [] => none

/-- Parse the `%Y-%m-%d` portion and validate it as a real calendar date
(the range checks `datetime.date` itself performs). -/
def parseYMD (l : List Char) : Option (Nat × Nat × Nat × List Char) := do
  let (y, l) ← read4 l
  let l ← lit '-' l
  let (m, l) ← read2 l
  let l ← lit '-' l
  let (d, l) ← read2 l
  if 1 ≤ y ∧ 1 ≤ m ∧ m ≤ 12 ∧ 1 ≤ d ∧ d ≤ daysInMonth y m then
    some (y, m, d, l)
  else none

/-- Model of `datetime.strptime(s, "%Y-%m-%d").date()`. -/
def strptimeDate (s : String) : Option Date :=
  match parseYMD s.data with
  | some (y, m, d, []) => some ⟨y, m, d⟩
  | _ => none

/-- Model of `datetime.strptime(s, "%Y-%m-%dT%H:%M:%S")`. -/
def strptimeDateTime (s : String) : Option DateTime := do
  let (y, m, d, l) ← parseYMD s.data
  let l ← lit 'T' l
  let (hh, l) ← read2 l
  let l ← lit ':' l
  let (mi, l) ← read2 l
  let l ← lit ':' l
  let (ss, l) ← read2 l
  if hh ≤ 23 ∧ mi ≤ 59 ∧ ss ≤ 59 ∧ l = [] then
    some ⟨toOrdinal y m d, ⟨hh, mi, ss⟩⟩
  else none

/-! ### Recurrence expander (`generate_ics`) -/

/-- The mapping `DAY_MAP` from `src/backend/main.py` (Monday = 0), as
`dict.get`. -/
def DAY_MAP (c : Char) : Option Nat :=
  if c = 'M' then some 0
  else if c = 'T' then some 1
  else if c = 'W' then some 2
  else if c = 'R' then some 3
  else if c = 'F' then some 4
  else none

/-- Whether a day-code character is recognized (case-insensitively). -/
def validDay (c : Char) : Bool := (DAY_MAP c.toUpper).isSome

/-- A raw schedule event: the Python `Dict[str, Any]` with string values,
as an association list. -/
def RawEvent : Type := List (String × String)

/-- Python `event_data[key]` (`some` value, or `none` = `KeyError`). -/
def getField (ev : RawEvent) (k : String) : Option String :=
  (List.find? (fun kv => kv.1 = k) ev).map (·.2)

/-- The required field names of a raw event. -/
def keyTitle : String := "title"

/-- The "start" field name. -/
def keyStart : String := "start"

/-- The "end" field name. -/
def keyEnd : String := "end"

/-- The "days" field name. -/
def keyDays : String := "days"

/-- The "location" field name. -/
def keyLocation : String := "location"

/-- The "notes" field name. -/
def keyNotes : String := "notes"

/-- The "end_date" field name. -/
def keyEndDate : String := "end_date"

/-- The straight-line prefix of the per-event `try` block: field extraction
and the three `strptime` calls.  `none` means the block raised
(`KeyError` for a missing field, `ValueError` for an unparseable date)
and the event is skipped. -/
structure ParsedEvent where
  title : String
  start_dt : DateTime
  end_dt : DateTime
  days : String
  location : String
  instructor : String
  end_date : Date
deriving DecidableEq

/-- Field extraction and date parsing for one raw event. -/
def parseEvent (ev : RawEvent) : Option ParsedEvent := do
  let title ← getField ev keyTitle
  let start_str ← getField ev keyStart
  let end_str ← getField ev keyEnd
  let days ← getField ev keyDays
  let location ← getField ev keyLocation
  let instructor ← getField ev keyNotes
  let end_date_str ← getField ev keyEndDate
  let start_dt ← strptimeDateTime start_str
  let end_dt ← strptimeDateTime end_str
  let end_date ← strptimeDate end_date_str
  pure ⟨title, start_dt, end_dt, days, location, instructor, end_date⟩

/-- The offset `days_ahead = (weekday - start_dt.weekday()) % 7` (Python `%`
on ints is `Int.emod`). -/
def daysAhead (w sOrd : Nat) : Nat :=
  (((w : Int) - (weekday sOrd : Int)) % 7).toNat

/-- The date `first_event_date = start_dt.date() + timedelta(days=days_ahead)`. -/
def firstEventDate (w sOrd : Nat) : Nat := sOrd + daysAhead w sOrd

/-- Zero-pad the decimal form of `n` to `width` characters. -/
def padNum (n width : Nat) : String :=
  let s := toString n
  ⟨List.replicate (width - s.length) '0' ++ s.data⟩

/-- Python `date.strftime("%Y-%m-%d")`. -/
def strftimeDate (d : Date) : String :=
  padNum d.year 4 ++ "-" ++ padNum d.month 2 ++ "-" ++ padNum d.day 2

/-- The weekly recurrence rule dict
`{"freq": "WEEKLY", "until": end_date.strftime("%Y-%m-%d")}`. -/
structure RRule where
  freq : String
  until_ : String
deriving DecidableEq

/-- One emitted `ics.Event` (name, begin, end, location, description, rrule). -/
structure CalEvent where
  name : String
  begin_ : DateTime
  end_ : DateTime
  location : String
  description : String
  rrule : RRule
deriving DecidableEq

/-- The `Event` built in the loop body for a mapped weekday `w`. -/
def mkEvent (p : ParsedEvent) (w : Nat) : CalEvent :=
  let fed := firstEventDate w p.start_dt.date
  { name := p.title
    begin_ := ⟨fed, p.start_dt.time⟩
    end_ := ⟨fed, p.end_dt.time⟩
    location := p.location
    description := p.instructor
    rrule := ⟨"WEEKLY", strftimeDate p.end_date⟩ }

/-- One iteration of `for day in days`: `DAY_MAP.get(day.upper())`, skipping
(`continue`) an unmapped character. -/
def emitDay (p : ParsedEvent) (c : Char) : Option CalEvent :=
  (DAY_MAP c.toUpper).map (mkEvent p)

/-- The `for day in days` loop: events added to the calendar for one parsed
raw event, in loop order. -/
def expandParsed (p : ParsedEvent) : List CalEvent :=
  p.days.data.filterMap (emitDay p)

/-- The whole `try`/`except` body for one raw event: a malformed event
(missing field or unparseable date) is logged and contributes nothing. -/
def processEvent (ev : RawEvent) : List CalEvent :=
  match parseEvent ev with
  | some p => expandParsed p
  | none => []

/-- Model of `generate_ics` from `src/backend/main.py`: the sequence of
events added to the calendar, over the whole batch, in the order the loop
produces them. -/
def generate_ics : List RawEvent → List CalEvent
  | [] => []
  | ev :: rest => processEvent ev ++ generate_ics rest

/-! ### Spec-side predicates (for the decoder refinement claim)

These two definitions follow the wording of the (amended) specification of
the decoder, to be compared with `parse_schedule` as embedded from the
source. -/

/-- Stated from the amended spec wording: the decoder fails exactly when the
text cannot be parsed even leniently, or the parsed structure is not an
object, or its "events" field is present but is not a sequence. -/
def specDecodeFails (r : Option JVal) : Prop :=
  r = none ∨
  (∃ v, r = some v ∧ ∀ kvs, v ≠ JVal.jobj kvs) ∨
  (∃ kvs v, r = some (JVal.jobj kvs) ∧ lookupJ keyEvents kvs = some v ∧
    ∀ es, v ≠ JVal.jarr es)

/-- Stated from the amended spec wording: the decoder succeeds with `es`
exactly when the parsed structure is an object whose "events" field is the
sequence `es`, or an object with no "events" field and `es = []`. -/
def specDecodeOk (r : Option JVal) (es : List JVal) : Prop :=
  ∃ kvs, r = some (JVal.jobj kvs) ∧
    (lookupJ keyEvents kvs = some (JVal.jarr es) ∨
     (lookupJ keyEvents kvs = none ∧ es = []))

/-! ### Concrete example data -/

/-- The spec's end-to-end example event (CS101, Monday/Wednesday/Friday). -/
def evMWF : RawEvent :=
  [(keyTitle, "CS101"), (keyStart, "2024-01-08T09:00:00"),
   (keyEnd, "2024-01-08T09:50:00"), (keyDays, "MWF"),
   (keyLocation, "Rm 5"), (keyNotes, "Prof X"), (keyEndDate, "2024-03-22")]

/-- The parsed form of `evMWF` (2024-01-08 has ordinal 738893). -/
def pMWF : ParsedEvent :=
  ⟨"CS101", ⟨738893, ⟨9, 0, 0⟩⟩, ⟨738893, ⟨9, 50, 0⟩⟩, "MWF", "Rm 5",
    "Prof X", ⟨2024, 3, 22⟩⟩

/-- The spec's recurrence example: same event, day code "W" only. -/
def evW : RawEvent :=
  [(keyTitle, "CS101"), (keyStart, "2024-01-08T09:00:00"),
   (keyEnd, "2024-01-08T09:50:00"), (keyDays, "W"),
   (keyLocation, "Rm 5"), (keyNotes, "Prof X"), (keyEndDate, "2024-03-22")]

/-- The parsed form of `evW`. -/
def pW : ParsedEvent :=
  ⟨"CS101", ⟨738893, ⟨9, 0, 0⟩⟩, ⟨738893, ⟨9, 50, 0⟩⟩, "W", "Rm 5",
    "Prof X", ⟨2024, 3, 22⟩⟩

/-- An event with the duplicated day string "MM". -/
def evMM : RawEvent :=
  [(keyTitle, "CS101"), (keyStart, "2024-01-08T09:00:00"),
   (keyEnd, "2024-01-08T09:50:00"), (keyDays, "MM"),
   (keyLocation, "Rm 5"), (keyNotes, "Prof X"), (keyEndDate, "2024-03-22")]

/-- The parsed form of `evMM`. -/
def pMM : ParsedEvent :=
  ⟨"CS101", ⟨738893, ⟨9, 0, 0⟩⟩, ⟨738893, ⟨9, 50, 0⟩⟩, "MM", "Rm 5",
    "Prof X", ⟨2024, 3, 22⟩⟩

/-- An event with a day string containing the unmapped code "X". -/
def evWXF : RawEvent :=
  [(keyTitle, "CS101"), (keyStart, "2024-01-08T09:00:00"),
   (keyEnd, "2024-01-08T09:50:00"), (keyDays, "WXF"),
   (keyLocation, "Rm 5"), (keyNotes, "Prof X"), (keyEndDate, "2024-03-22")]

/-- A malformed event: the "title" field is missing. -/
def evNoTitle : RawEvent :=
  [(keyStart, "2024-01-09T10:00:00"), (keyEnd, "2024-01-09T10:50:00"),
   (keyDays, "T"), (keyLocation, "Rm 6"), (keyNotes, "Prof Y"),
   (keyEndDate, "2024-03-22")]

/-- A malformed event: the "start" date does not parse (month 99). -/
def evBadDate : RawEvent :=
  [(keyTitle, "Chem"), (keyStart, "2024-99-09T10:00:00"),
   (keyEnd, "2024-01-09T10:50:00"), (keyDays, "T"), (keyLocation, "Rm 6"),
   (keyNotes, "Prof Z"), (keyEndDate, "2024-03-22")]

/-- A third well-formed event for the batch example. -/
def evT : RawEvent :=
  [(keyTitle, "Math"), (keyStart, "2024-01-09T11:00:00"),
   (keyEnd, "2024-01-09T11:50:00"), (keyDays, "T"), (keyLocation, "Rm 7"),
   (keyNotes, "Prof W"), (keyEndDate, "2024-03-22")]

/-- Sanitizer input whose backtick removal exposes leading whitespace:
a backtick, two spaces, then the letter a. -/
def exTickSpace : String := ⟨[tick, ' ', ' ', 'a']⟩

/-- A benign sanitizer input. -/
def exPlain : String := "hello"

/-- A decoder boundary returning, for every input, an object that lacks the
"events" field (as `demjson3.decode` does on such texts). -/
def decNoEvents : String → Option JVal :=
  fun _ => some (JVal.jobj [("foo", JVal.jnull)])

/-- A decoder boundary returning an object whose "events" field is a
two-element list. -/
def decTwoEvents : String → Option JVal :=
  fun _ => some (JVal.jobj [(keyEvents, JVal.jarr [JVal.jnull, JVal.jbool true])])

/-! ## Theorems -/

/-- The backtick-removal step removes every backtick. -/
theorem tick_not_mem_stripTicks (l : List Char) : tick ∉ stripTicks l := by
  intro h
  have h' := List.of_mem_filter h
  simp at h'

/-- Sanitizer output never contains a backtick. -/
theorem tick_not_mem_cleanList (l : List Char) : tick ∉ cleanList l := by
  simp only [cleanList]
  exact tick_not_mem_stripTicks _

/-- A backtick-free, whitespace-stripped string that does not start with the
token "json" is a fixed point of the sanitizer. -/
theorem cleanList_fixed (y : List Char) (hy : tick ∉ y)
    (h1 : pyStrip y = y) (h2 : jsonPrefixed y = false) : cleanList y = y := by
  have hticks : ¬ (y.take 3 = tick3 ∧ y.reverse.take 3 = tick3) := by
    rintro ⟨ht, _⟩
    apply hy
    have hmem : tick ∈ y.take 3 := by rw [ht]; simp [tick3]
    exact List.take_subset _ _ hmem
  have hfilter : stripTicks y = y := by
    refine List.filter_eq_self.mpr (fun a ha => ?_)
    simp only [bne_iff_ne, ne_eq, decide_eq_true_eq]
    exact fun h => hy (h ▸ ha)
  simp only [cleanList, h1, if_neg hticks, h2, Bool.false_eq_true, if_false,
    hfilter]

/-- C3 (counterexample): the sanitizer is not idempotent.  On the input
consisting of a backtick, two spaces and a letter, removing the backtick
exposes leading whitespace, which only a second pass strips. -/
theorem c3_counterexample :
    clean_response (clean_response exTickSpace) ≠ clean_response exTickSpace := by
  decide

/-- C3 (amended): the sanitizer is idempotent on every input whose sanitized
form is already whitespace-stripped and does not start, case-insensitively,
with the token "json" (backtick removal can expose surrounding whitespace,
and stripping one "json" prefix can expose another; outside those two cases
a second application changes nothing). -/
theorem c3_clean_response_idem (x : String)
    (h1 : pyStripStr (clean_response x) = clean_response x)
    (h2 : jsonPrefixedStr (clean_response x) = false) :
    clean_response (clean_response x) = clean_response x := by
  have hy : tick ∉ cleanList x.data := tick_not_mem_cleanList _
  have h1' : pyStrip (cleanList x.data) = cleanList x.data :=
    congrArg String.data h1
  have h2' : jsonPrefixed (cleanList x.data) = false := h2
  show (⟨cleanList (cleanList x.data)⟩ : String) = ⟨cleanList x.data⟩
  rw [cleanList_fixed _ hy h1' h2']

/-- C3 (witness): the amended idempotence at the concrete input "hello". -/
theorem c3_clean_response_idem_witness :
    clean_response (clean_response exPlain) = clean_response exPlain :=
  c3_clean_response_idem exPlain (by decide) (by decide)

/-- The decoder stage errors exactly under the conditions of
`specDecodeFails`. -/
theorem parseResult_fails_iff (r : Option JVal) :
    isFailure (parseResult r) = true ↔ specDecodeFails r := by
  rcases r with _ | v
  · simp [parseResult, isFailure, specDecodeFails]
  · rcases v with _ | b | n | s | es | kvs
    case jobj =>
      rcases hl : lookupJ keyEvents kvs with _ | v'
      · simp [parseResult, isFailure, specDecodeFails, hl]
      · rcases v' with _ | b' | n' | s' | es' | kvs''
        all_goals simp [parseResult, isFailure, specDecodeFails, hl]
    all_goals simp [parseResult, isFailure, specDecodeFails]

/-- The decoder stage succeeds with `es` exactly under the conditions of
`specDecodeOk`. -/
theorem parseResult_ok_iff (r : Option JVal) (es : List JVal) :
    parseResult r = Except.ok es ↔ specDecodeOk r es := by
  rcases r with _ | v
  · simp [parseResult, specDecodeOk]
  · rcases v with _ | b | n | s | es' | kvs
    case jobj =>
      rcases hl : lookupJ keyEvents kvs with _ | v'
      · simp [parseResult, specDecodeOk, hl]
      · rcases v' with _ | b' | n' | s' | es'' | kvs''
        all_goals simp [parseResult, specDecodeOk, hl]
    all_goals simp [parseResult, specDecodeOk]

/-- C2 (counterexample): when the sanitized text decodes to an object that
lacks the "events" field, `parse_schedule` does not fail; it silently
returns the empty event list. -/
theorem c2_counterexample : parse_schedule decNoEvents exPlain = Except.ok [] :=
  rfl

/-- The offset `days_ahead` is at most six days. -/
theorem daysAhead_le_six (w s : Nat) : daysAhead w s ≤ 6 := by
  unfold daysAhead
  have h1 : 0 ≤ ((w : Int) - (weekday s : Int)) % 7 :=
    Int.emod_nonneg _ (by norm_num)
  have h2 : ((w : Int) - (weekday s : Int)) % 7 < 7 :=
    Int.emod_lt_of_pos _ (by norm_num)
  omega

/-- The computed first occurrence falls on the requested weekday. -/
theorem weekday_firstEventDate (w s : Nat) (hw : w < 7) :
    weekday (firstEventDate w s) = w := by
  unfold firstEventDate daysAhead weekday
  omega

/-- Any weekday number produced by `DAY_MAP` is below seven. -/
theorem DAY_MAP_lt_seven (c : Char) (w : Nat) (h : DAY_MAP c = some w) :
    w < 7 := by
  unfold DAY_MAP at h
  split_ifs at h <;> simp_all <;> omega

/-- Membership in the expansion of one parsed event. -/
theorem mem_expandParsed {p : ParsedEvent} {ce : CalEvent} :
    ce ∈ expandParsed p ↔
      ∃ c ∈ p.days.data, ∃ w, DAY_MAP c.toUpper = some w ∧ mkEvent p w = ce := by
  simp [expandParsed, List.mem_filterMap, emitDay, Option.map_eq_some']

/-- Processing a batch distributes over append. -/
theorem generate_ics_append (xs ys : List RawEvent) :
    generate_ics (xs ++ ys) = generate_ics xs ++ generate_ics ys := by
  induction xs with
  | nil => rfl
  | cons e rest ih => simp [generate_ics, ih]

/-- A one-event batch produces exactly that event's expansion. -/
theorem generate_ics_singleton (ev : RawEvent) (p : ParsedEvent)
    (hp : parseEvent ev = some p) : generate_ics [ev] = expandParsed p := by
  simp [generate_ics, processEvent, hp]

/-- Filtering to the elements on which `f` fires does not change `filterMap`. -/
theorem filterMap_filter_isSome {α β : Type} (f : α → Option β) (l : List α) :
    (l.filter (fun a => (f a).isSome)).filterMap f = l.filterMap f := by
  induction l with
  | nil => rfl
  | cons a t ih =>
    by_cases h : (f a).isSome
    · rcases Option.isSome_iff_exists.mp h with ⟨b, hb⟩
      rw [List.filter_cons_of_pos (by simpa using h)]
      simp [List.filterMap_cons, hb, ih]
    · have hn : f a = none := Option.not_isSome_iff_eq_none.mp h
      rw [List.filter_cons_of_neg (by simpa using h)]
      simp [List.filterMap_cons, hn, ih]

/-- C2 (amended): `parse_schedule` fails exactly when the sanitized text
cannot be parsed even by the lenient parser, or the parsed structure is not
an object, or its "events" field is present but is not a sequence; when the
"events" field is absent it returns the empty sequence, and otherwise it
returns the events sequence. -/
theorem c2_parse_schedule_spec (dec : String → Option JVal) (s : String) :
    (isFailure (parse_schedule dec s) = true ↔
      specDecodeFails (dec (clean_response s))) ∧
    (∀ es, parse_schedule dec s = Except.ok es ↔
      specDecodeOk (dec (clean_response s)) es) :=
  ⟨parseResult_fails_iff _, fun es => parseResult_ok_iff _ es⟩

/-- C1: for every well-formed event, every emitted calendar event is anchored
at the start date plus `(w - start.weekday()) mod 7` days for some weekday
`w` mapped from a day code of the event, so the anchor is never before the
start date and at most six days after it. -/
theorem c1_first_occurrence (ev : RawEvent) (p : ParsedEvent)
    (hp : parseEvent ev = some p) (ce : CalEvent)
    (hce : ce ∈ processEvent ev) :
    (∃ c ∈ p.days.data, ∃ w, DAY_MAP c.toUpper = some w ∧
      ce.begin_.date = p.start_dt.date + daysAhead w p.start_dt.date) ∧
    p.start_dt.date ≤ ce.begin_.date ∧
    ce.begin_.date ≤ p.start_dt.date + 6 := by
  rw [show processEvent ev = expandParsed p from by simp [processEvent, hp]]
    at hce
  obtain ⟨c, hc, w, hw, hmk⟩ := mem_expandParsed.mp hce
  subst hmk
  refine ⟨⟨c, hc, w, hw, rfl⟩, Nat.le_add_right _ _, ?_⟩
  exact Nat.add_le_add_left (daysAhead_le_six w p.start_dt.date) _

/-- C1 (witness): the spec's recurrence example, start Monday 2024-01-08
with day code W; the anchor is 2024-01-10. -/
theorem c1_first_occurrence_witness :
    (∃ c ∈ pW.days.data, ∃ w, DAY_MAP c.toUpper = some w ∧
      (mkEvent pW 2).begin_.date = pW.start_dt.date + daysAhead w pW.start_dt.date) ∧
    pW.start_dt.date ≤ (mkEvent pW 2).begin_.date ∧
    (mkEvent pW 2).begin_.date ≤ pW.start_dt.date + 6 :=
  c1_first_occurrence evW pW (by decide) (mkEvent pW 2) (by decide)

/-- C4: a malformed event (missing required field or unparseable date, i.e.
`parseEvent` fails) contributes zero output, and the batch result is exactly
as if that event were absent. -/
theorem c4_isolated_failure (xs ys : List RawEvent) (e : RawEvent)
    (h : parseEvent e = none) :
    processEvent e = [] ∧
    generate_ics (xs ++ e :: ys) = generate_ics (xs ++ ys) := by
  have hpe : processEvent e = [] := by simp [processEvent, h]
  refine ⟨hpe, ?_⟩
  rw [generate_ics_append, generate_ics_append,
    show generate_ics (e :: ys) = processEvent e ++ generate_ics ys from rfl,
    hpe, List.nil_append]

/-- C4 (witness): the spec's batch of three events whose second lacks the
"title" field yields exactly the events of the first and third. -/
theorem c4_isolated_failure_witness :
    processEvent evNoTitle = [] ∧
    generate_ics ([evMWF] ++ evNoTitle :: [evT]) = generate_ics ([evMWF] ++ [evT]) :=
  c4_isolated_failure [evMWF] [evT] evNoTitle (by decide)

/-- C9: if every raw event of the batch is malformed (vacuously, also when
the batch is empty), `generate_ics` still succeeds and produces a calendar
with zero events. -/
theorem c9_all_malformed (evs : List RawEvent)
    (h : ∀ e ∈ evs, parseEvent e = none) : generate_ics evs = [] := by
  induction evs with
  | nil => rfl
  | cons e rest ih =>
    have he : parseEvent e = none := h e (List.mem_cons_self e rest)
    have hr : generate_ics rest = [] :=
      ih (fun x hx => h x (List.mem_cons_of_mem _ hx))
    simp [generate_ics, processEvent, he, hr]

/-- C9 (witness): a batch of two malformed events (one missing a field, one
with an unparseable date) produces an empty calendar. -/
theorem c9_all_malformed_witness : generate_ics [evNoTitle, evBadDate] = [] :=
  c9_all_malformed [evNoTitle, evBadDate] (by decide)

/-- C7: every emitted calendar event keeps the source start and end
time-of-day on its anchor occurrence; begin and end share one date, namely
the first occurrence date of a mapped weekday. -/
theorem c7_time_of_day (ev : RawEvent) (p : ParsedEvent)
    (hp : parseEvent ev = some p) (ce : CalEvent)
    (hce : ce ∈ processEvent ev) :
    ce.begin_.time = p.start_dt.time ∧ ce.end_.time = p.end_dt.time ∧
    ce.begin_.date = ce.end_.date ∧
    ∃ w, (∃ c ∈ p.days.data, DAY_MAP c.toUpper = some w) ∧
      ce.begin_.date = firstEventDate w p.start_dt.date := by
  rw [show processEvent ev = expandParsed p from by simp [processEvent, hp]]
    at hce
  obtain ⟨c, hc, w, hw, hmk⟩ := mem_expandParsed.mp hce
  subst hmk
  exact ⟨rfl, rfl, rfl, w, ⟨c, hc, hw⟩, rfl⟩

/-- C7 (witness): the time-of-day invariant at the concrete W-event. -/
theorem c7_time_of_day_witness :
    (mkEvent pW 2).begin_.time = pW.start_dt.time ∧
    (mkEvent pW 2).end_.time = pW.end_dt.time ∧
    (mkEvent pW 2).begin_.date = (mkEvent pW 2).end_.date ∧
    ∃ w, (∃ c ∈ pW.days.data, DAY_MAP c.toUpper = some w) ∧
      (mkEvent pW 2).begin_.date = firstEventDate w pW.start_dt.date :=
  c7_time_of_day evW pW (by decide) (mkEvent pW 2) (by decide)

/-- C10: duplicate day codes are not deduplicated; an event whose days value
is "MM" yields two identical calendar entries, both anchored to Monday, both
in the output. -/
theorem c10_duplicate_days (ev : RawEvent) (p : ParsedEvent)
    (hp : parseEvent ev = some p) (hd : p.days = "MM") :
    generate_ics [ev] = [mkEvent p 0, mkEvent p 0] ∧
    weekday (mkEvent p 0).begin_.date = 0 := by
  constructor
  · rw [generate_ics_singleton ev p hp]
    simp only [expandParsed]
    rw [hd]
    rfl
  · exact weekday_firstEventDate 0 _ (by norm_num)

/-- C10 (witness): the concrete "MM" event. -/
theorem c10_duplicate_days_witness :
    generate_ics [evMM] = [mkEvent pMM 0, mkEvent pMM 0] ∧
    weekday (mkEvent pMM 0).begin_.date = 0 :=
  c10_duplicate_days evMM pMM (by decide) rfl

/-- C6: per-letter case-insensitivity of the day-code table; an unmapped
character produces no event and raises nothing; and dropping the invalid
characters of an event's days value leaves its expansion unchanged. -/
theorem c6_day_code_handling :
    (DAY_MAP ('m'.toUpper) = some 0 ∧ DAY_MAP ('M'.toUpper) = some 0 ∧
     DAY_MAP ('t'.toUpper) = some 1 ∧ DAY_MAP ('T'.toUpper) = some 1 ∧
     DAY_MAP ('w'.toUpper) = some 2 ∧ DAY_MAP ('W'.toUpper) = some 2 ∧
     DAY_MAP ('r'.toUpper) = some 3 ∧ DAY_MAP ('R'.toUpper) = some 3 ∧
     DAY_MAP ('f'.toUpper) = some 4 ∧ DAY_MAP ('F'.toUpper) = some 4) ∧
    (∀ (p : ParsedEvent) (c : Char), DAY_MAP c.toUpper = none →
      emitDay p c = none) ∧
    (∀ p : ParsedEvent,
      expandParsed { p with days := ⟨p.days.data.filter validDay⟩ } =
        expandParsed p) := by
  refine ⟨by decide, ?_, ?_⟩
  · intro p c h
    simp [emitDay, h]
  · intro p
    show List.filterMap (emitDay p) (p.days.data.filter validDay) =
      List.filterMap (emitDay p) p.days.data
    rw [List.filter_congr
      (fun c _ => show validDay c = (emitDay p c).isSome by
        simp [emitDay, validDay])]
    exact filterMap_filter_isSome (emitDay p) p.days.data

/-- C6 (witness): the unmapped code X in the concrete "WXF" event is
skipped, and the event expands exactly as with days "WF". -/
theorem c6_day_code_handling_witness :
    emitDay pW 'X' = none :=
  c6_day_code_handling.2.1 pW 'X' (by decide)

/-- C5 (counterexample): an event with the duplicated days value "MM" is
well-formed with valid day codes, yet its two emitted entries share one
anchor weekday (and their count differs from the number of distinct codes),
so the entries are not "each anchored to a different weekday". -/
theorem c5_counterexample :
    (generate_ics [evMM]).length = 2 ∧
    ¬ List.Pairwise (fun a b => weekday a.begin_.date ≠ weekday b.begin_.date)
      (generate_ics [evMM]) := by
  refine ⟨by decide, ?_⟩
  intro h
  rw [show generate_ics [evMM] = [mkEvent pMM 0, mkEvent pMM 0] from by decide]
    at h
  rcases List.pairwise_cons.mp h with ⟨h1, _⟩
  exact h1 _ (List.mem_cons_self _ _) rfl

/-- C5 (amended): for a well-formed event whose valid day codes map to
pairwise distinct weekdays, `generate_ics` emits one entry per valid
day-code character, the entries are anchored to pairwise different
weekdays, and they all share the source time-of-day and the same weekly
recurrence end date. -/
theorem c5_fanout (ev : RawEvent) (p : ParsedEvent)
    (hp : parseEvent ev = some p)
    (hnd : (p.days.data.filterMap (fun c => DAY_MAP c.toUpper)).Nodup) :
    (generate_ics [ev]).length = p.days.data.countP validDay ∧
    List.Pairwise (fun a b => weekday a.begin_.date ≠ weekday b.begin_.date)
      (generate_ics [ev]) ∧
    ∀ ce ∈ generate_ics [ev], ce.begin_.time = p.start_dt.time ∧
      ce.end_.time = p.end_dt.time ∧
      ce.rrule = ⟨"WEEKLY", strftimeDate p.end_date⟩ := by
  rw [generate_ics_singleton ev p hp]
  have hrepr : expandParsed p =
      (p.days.data.filterMap (fun c => DAY_MAP c.toUpper)).map (mkEvent p) := by
    unfold expandParsed
    exact (List.map_filterMap _ _ _).symm
  refine ⟨?_, ?_, ?_⟩
  · unfold expandParsed
    rw [List.length_filterMap_eq_countP]
    exact List.countP_congr (fun c _ => by simp [emitDay, validDay])
  · rw [hrepr, List.pairwise_map]
    have hmem : ∀ w ∈ p.days.data.filterMap (fun c => DAY_MAP c.toUpper),
        w < 7 := by
      intro w hw
      rcases List.mem_filterMap.mp hw with ⟨c, _, hc⟩
      exact DAY_MAP_lt_seven _ _ hc
    refine List.Pairwise.imp_of_mem ?_ hnd
    intro a b ha hb hab
    rw [show (mkEvent p a).begin_.date = firstEventDate a p.start_dt.date
        from rfl,
      show (mkEvent p b).begin_.date = firstEventDate b p.start_dt.date
        from rfl,
      weekday_firstEventDate a _ (hmem a ha),
      weekday_firstEventDate b _ (hmem b hb)]
    exact hab
  · intro ce hce
    obtain ⟨c, hc, w, hw, hmk⟩ := mem_expandParsed.mp hce
    subst hmk
    exact ⟨rfl, rfl, rfl⟩

/-- C5 (witness): the spec's fan-out example, days "MWF". -/
theorem c5_fanout_witness :
    (generate_ics [evMWF]).length = pMWF.days.data.countP validDay ∧
    List.Pairwise (fun a b => weekday a.begin_.date ≠ weekday b.begin_.date)
      (generate_ics [evMWF]) ∧
    ∀ ce ∈ generate_ics [evMWF], ce.begin_.time = pMWF.start_dt.time ∧
      ce.end_.time = pMWF.end_dt.time ∧
      ce.rrule = ⟨"WEEKLY", strftimeDate pMWF.end_date⟩ :=
  c5_fanout evMWF pMWF (by decide) (by decide)

end ScheduleToCalendar
